import Mathlib

/-!
Shallow embedding of the ScraprIQ backend extraction core
(`src/app/scrapers.py` and the batch loop of `src/main.py`).

Python strings are modelled as Lean `String`; the parsed HTML document is
modelled as a tree of `Node`s; the Hunter.io client and the page fetcher are
modelled as explicit function parameters; Python exceptions raised by those
collaborators are modelled with `Except`.  Regexes used by the source are
translated into executable character-list matchers.
-/

namespace ScraprIQ

/-- Word character in the sense of the regex class `\w` (ASCII reading):
letters, digits and the underscore. -/
def isWordChar (c : Char) : Bool := c.isAlphanum || c == '_'

/-- Python `str.lower()` as used by the source: per-character basic-latin
lowercasing. -/
def pyLower (s : String) : String := String.mk (s.toList.map Char.toLower)

/-- Matcher for the suffix pattern `\.[^@]` used inside the email shape regex:
true iff the list starts with a dot followed by a non-`@` character. -/
def matchDot : List Char → Bool
  | '.' :: d :: _ => d != '@'
  | _ => false

/-- Matcher for the pattern `[^@]+\.[^@]+` as a prefix of the list. -/
def afterAt : List Char → Bool
  | [] => false
  | c :: rest => c != '@' && (matchDot rest || afterAt rest)

/-- Matcher for `@[^@]+\.[^@]+` as a prefix of the list. -/
def matchAtSign : List Char → Bool
  | '@' :: rest => afterAt rest
  | _ => false

/-- Matcher for `[^@]+@[^@]+\.[^@]+` as a prefix of the list; this is
`re.match(r"[^@]+@[^@]+\.[^@]+", s)` of the source. -/
def emailMatchList : List Char → Bool
  | [] => false
  | c :: rest => c != '@' && (matchAtSign rest || emailMatchList rest)

/-- The basic email-shape check of the source:
`re.match(r"[^@]+@[^@]+\.[^@]+", s) is not None`. -/
def emailShape (s : String) : Bool := emailMatchList s.toList

/-- Maximal leading run of word characters, the `\w+` of the two name
regexes. -/
def wordRun (l : List Char) : List Char := l.takeWhile isWordChar

/-- Source `re.match(r'(\w+)', name)`: the maximal leading run of word
characters, provided it is non-empty. -/
def firstNameMatch (name : String) : Option String :=
  if (wordRun name.toList).isEmpty then none
  else some (String.mk (wordRun name.toList))

/-- Source `re.search(r'\s(\w+)$', name)`: the maximal trailing run of word
characters, provided it is non-empty and immediately preceded by a whitespace
character. -/
def lastNameMatch (name : String) : Option String :=
  match name.toList.reverse.drop (wordRun name.toList.reverse).length,
      wordRun name.toList.reverse with
  | c :: _, _ :: _ =>
    if c.isWhitespace then some (String.mk (wordRun name.toList.reverse).reverse)
    else none
  | _, _ => none

/-- Helper for Python `str.split()`: accumulate the current token while
scanning, splitting on whitespace and discarding empty tokens. -/
def splitWSGo : List Char → List Char → List (List Char)
  | [], acc => if acc.isEmpty then [] else [acc.reverse]
  | c :: rest, acc =>
    if c.isWhitespace then
      if acc.isEmpty then splitWSGo rest [] else acc.reverse :: splitWSGo rest []
    else splitWSGo rest (c :: acc)

/-- Python `str.split()` with no separator: split on whitespace runs, no empty
tokens. -/
def pySplit (s : String) : List String :=
  (splitWSGo s.toList []).map String.mk

/-- Python `s[0].isupper()` guarded by non-emptiness (the source only reaches
the index after a token-count check that fails on the empty string). -/
def headUpper (s : String) : Bool :=
  match s.toList with
  | [] => false
  | c :: _ => c.isUpper

/-- Source `re.search(r'^\W+$', s)`: non-empty and made of non-word characters
only. -/
def symbolsOnly (s : String) : Bool :=
  !s.isEmpty && s.toList.all (fun c => !isWordChar c)

/-- Python `str.isnumeric()` (ASCII reading): non-empty and all digits. -/
def pyIsNumeric (s : String) : Bool :=
  !s.isEmpty && s.toList.all Char.isDigit

/-- Python `any(char.isdigit() for char in s)`. -/
def hasDigit (s : String) : Bool := s.toList.any Char.isDigit

/-- Decide whether the first list is a prefix of the second (character by
character). -/
def charsStart : List Char → List Char → Bool
  | [], _ => true
  | _ :: _, [] => false
  | a :: as, b :: bs => a == b && charsStart as bs

/-- Decide whether the first list occurs as a contiguous sublist of the
second; this is `re.search` of a literal pattern. -/
def charsHaveSub (needle : List Char) : List Char → Bool
  | [] => needle.isEmpty
  | b :: bs => charsStart needle (b :: bs) || charsHaveSub needle bs

/-- Substring occurrence test on strings (case-sensitive, as the source
regexes are compiled without `re.IGNORECASE`). -/
def strHasSub (needle hay : String) : Bool := charsHaveSub needle.toList hay.toList

/-- Python `str.strip()`: drop leading and trailing whitespace. -/
def pyStrip (s : String) : String :=
  String.mk
    (((s.toList.dropWhile Char.isWhitespace).reverse.dropWhile
        Char.isWhitespace).reverse)

/-- Parsed markup: either a text node (`NavigableString`) or an element with a
tag name, a list of CSS classes and children. -/
inductive Node where
  | text : String → Node
  | elem : String → List String → List Node → Node

mutual

/-- All descendants of a node in document (preorder) order, the node itself
excluded; this is the iteration order of BeautifulSoup `find_all`. -/
def descendants : Node → List Node
  | .text _ => []
  | .elem _ _ cs => descendantsList cs

/-- Descendant enumeration lifted to a list of sibling nodes. -/
def descendantsList : List Node → List Node
  | [] => []
  | c :: cs => c :: (descendants c ++ descendantsList cs)

end

/-- BeautifulSoup `.string`: the text of the unique child, recursively through
unique element children, and `None` otherwise. -/
def nodeString : Node → Option String
  | .text s => some s
  | .elem _ _ [c] => nodeString c
  | .elem _ _ [] => none
  | .elem _ _ (_ :: _ :: _) => none

mutual

/-- BeautifulSoup `get_text(strip=True)`: each descendant text fragment is
trimmed and the results are concatenated without separator. -/
def getTextStrip : Node → String
  | .text s => pyStrip s
  | .elem _ _ cs => getTextStripList cs

/-- Concatenated stripped text of a list of sibling nodes. -/
def getTextStripList : List Node → String
  | [] => ""
  | c :: cs => getTextStrip c ++ getTextStripList cs

end

/-- Raw texts of all descendant text nodes in document order; this is
`find_all(text=True)`. -/
def allTexts (card : Node) : List String :=
  (descendants card).filterMap fun n =>
    match n with
    | .text s => some s
    | .elem _ _ _ => none

/-! ## Verification adapter (`verify_email_with_hunter`) -/

/-- Outcome dictionary of `verify_email_with_hunter`: a status token and a
free-text details string. -/
structure VerifyOutcome where
  status : String
  details : String
deriving DecidableEq

/-- Response dictionary of the Hunter.io `email_verifier` call, with the two
keys the source reads (`result` and `status`), each possibly absent. -/
structure HunterResult where
  result : Option String
  status : Option String
deriving DecidableEq

/-- The Hunter.io client: the `email_verifier` call either returns a response
dictionary or raises (modelled by `Except.error` carrying `str(e)`). -/
abbrev HunterClient : Type := String → Except String HunterResult

/-- Source `status_map.get(x, 'UNKNOWN')` where `x` is
`verification_result.get('result')` (so `none` when the key is absent). -/
def statusMapGet : Option String → String
  | some "valid" => "VERIFIED"
  | some "deliverable" => "VERIFIED"
  | some "invalid" => "INVALID"
  | some "undeliverable" => "INVALID"
  | some "unknown" => "UNKNOWN"
  | some "acceptable" => "VERIFIED"
  | _ => "UNKNOWN"

/-- Python `verification_result.get(key, 'N/A')`. -/
def optNA (o : Option String) : String := o.getD "N/A"

/-- Details f-string built from a Hunter.io response. -/
def hunterDetails (r : HunterResult) : String :=
  "Hunter.io: " ++ optNA r.result ++ " | " ++ optNA r.status

/-- Embedding of `verify_email_with_hunter`.  The module-level
`hunter_client` (absent when the API key is not configured) and the behavior
of the provider call are passed explicitly; the `domain` argument is accepted
and ignored exactly as in the source. -/
def verify_email_with_hunter (client : Option HunterClient)
    (email : String) (_domain : String) : VerifyOutcome :=
  match client with
  | none => ⟨"UNVERIFIED", "Hunter.io API key not configured."⟩
  | some hc =>
    if !emailShape email then
      ⟨"INVALID", "Invalid email format prior to Hunter.io check."⟩
    else
      match hc email with
      | .ok r => ⟨statusMapGet r.result, hunterDetails r⟩
      | .error e => ⟨"ERROR_VERIFYING", "Hunter.io API error: " ++ e⟩

/-! ## Field extraction (`_extract_info_from_card`) -/

/-- Tag names searched by the primary name pass. -/
def nameTags : List String := ["h1", "h2", "h3", "h4", "strong", "b"]

/-- Tag filter of `card_element.find(['h1','h2','h3','h4','strong','b'],
text=True)`: an element with one of the name tags whose `.string` is set. -/
def isNameTagCandidate (n : Node) : Bool :=
  match n with
  | .elem t _ _ => nameTags.contains t && (nodeString n).isSome
  | .text _ => false

/-- The "basic filter for names" applied to the first found name tag:
2 to 4 whitespace tokens, leading uppercase character, no digit. -/
def nameFilterA (t : String) : Bool :=
  decide (1 < (pySplit t).length) && decide ((pySplit t).length < 5) &&
  headUpper t && !hasDigit t

/-- Name search step (a) of the source (lines 58-62): take the FIRST
heading/bold/strong descendant carrying a direct string, and keep its stripped
text only when the basic name filter accepts it. -/
def nameStepA (card : Node) : Option String :=
  match ((descendants card).filter isNameTagCandidate).head? with
  | none => none
  | some n =>
    let t := getTextStrip n
    if nameFilterA t then some t else none

/-- Acceptance test of the broader name search (lines 65-70): the outer
condition plus the nested not-purely-symbolic check. -/
def nameFilterB (t : String) : Bool :=
  decide (1 < (pySplit t).length) && decide ((pySplit t).length < 5) &&
  headUpper t && !hasDigit t && decide (5 < t.length) && !symbolsOnly t

/-- Name search step (b): scan all descendant text nodes in document order and
accept the first stripped text passing the broad filter. -/
def nameStepB (card : Node) : Option String :=
  ((allTexts card).map pyStrip).find? nameFilterB

/-- Name search of `_extract_info_from_card`: step (a), then step (b) when no
name was set. -/
def findName (card : Node) : Option String :=
  match nameStepA card with
  | some n => some n
  | none => nameStepB card

/-- Tag names searched by the title pass. -/
def titleTags : List String := ["p", "span", "div", "small"]

/-- Tag filter of `find_all(['p','span','div','small'], text=True)`. -/
def isTitleTagCandidate (n : Node) : Bool :=
  match n with
  | .elem t _ _ => titleTags.contains t && (nodeString n).isSome
  | .text _ => false

/-- Title acceptance test (line 76): differs from the name, length strictly
between 5 and 100, contains a space, not numeric, not purely symbolic. -/
def titleFilterFor (name t : String) : Bool :=
  t != name && decide (5 < t.length) && decide (t.length < 100) &&
  t.toList.contains ' ' && !pyIsNumeric t && !symbolsOnly t

/-- Title search: first stripped text of a title-tag descendant that passes
the acceptance test. -/
def titleFirst (card : Node) (name : String) : Option String :=
  (((descendants card).filter isTitleTagCandidate).map getTextStrip).find?
    (titleFilterFor name)

/-! ## Email inference (lines 84-108) -/

/-- Python `first_name[0]` as a one-character string (the argument is a
non-empty word-character run wherever the source evaluates it). -/
def strHead (s : String) : String :=
  match s.toList with
  | [] => ""
  | c :: _ => String.mk [c]

/-- The ordered candidate list of inferred addresses. -/
def emailCandidates (name domain : String) : List String :=
  match firstNameMatch name, lastNameMatch name with
  | some f, some l =>
    let first := pyLower f
    let last := pyLower l
    [ first ++ "." ++ last ++ "@" ++ domain,
      strHead first ++ last ++ "@" ++ domain,
      first ++ last ++ "@" ++ domain,
      first ++ "-" ++ last ++ "@" ++ domain,
      last ++ strHead first ++ "@" ++ domain,
      first ++ "@" ++ domain ]
  | some f, none => [pyLower f ++ "@" ++ domain]
  | none, _ => []

/-- Inferred email of a card: the first candidate passing the basic shape
check, or the sentinel `"N/A"`; candidates are only generated when both the
name and the domain are non-empty (Python truthiness of the guard). -/
def inferEmail (name domain : String) : String :=
  if name != "" && domain != "" then
    match (emailCandidates name domain).find? emailShape with
    | some c => c
    | none => "N/A"
  else "N/A"

/-- One output record of the extraction (`PersonLead`). -/
structure LeadRec where
  name : String
  job_title : String
  company : String
  inferred_email : String
  verified_status : String
  verification_details : String
deriving DecidableEq

/-- Embedding of `_extract_info_from_card`: find a name (or discard the card),
find a title, infer an email, verify it, and assemble the record. -/
def extractInfoFromCard (client : Option HunterClient) (card : Node)
    (domain : String) : Option LeadRec :=
  match findName card with
  | none => none
  | some name =>
    let title := titleFirst card name
    let email := inferEmail name domain
    let v := verify_email_with_hunter client email domain
    some
      { name := name
        job_title :=
          match title with
          | some t => if t != "" then t else "N/A"
          | none => "N/A"
        company := domain
        inferred_email := email
        verified_status := v.status
        verification_details := v.details }

/-! ## Container location and page scraping (`scrape_company_team_page`) -/

/-- Keyword alternatives of the primary locator regex
`(team|member|person|staff|employee|author|card|profile|bio)`. -/
def locatorKeywords : List String :=
  ["team", "member", "person", "staff", "employee", "author", "card", "profile", "bio"]

/-- One class token matches the primary locator regex via `re.search`:
case-sensitive substring occurrence of some keyword. -/
def classTokenMatch (c : String) : Bool :=
  locatorKeywords.any fun k => strHasSub k c

/-- Primary container pass: all `div`/`li` descendants one of whose class
tokens matches the keyword regex. -/
def primaryPass (doc : Node) : List Node :=
  (descendants doc).filter fun n =>
    match n with
    | .elem t cls _ => (t == "div" || t == "li") && cls.any classTokenMatch
    | .text _ => false

/-- Keyword alternatives of the fallback locator regex. -/
def fallbackKeywords : List String := ["section", "container", "wrap"]

/-- Does the container hold a heading (`h2`/`h3`/`h4`) descendant? -/
def hasHeadingChild (container : Node) : Bool :=
  (descendants container).any fun n =>
    match n with
    | .elem t _ _ => t == "h2" || t == "h3" || t == "h4"
    | .text _ => false

/-- Does the container hold a `p`/`span` descendant? -/
def hasParaChild (container : Node) : Bool :=
  (descendants container).any fun n =>
    match n with
    | .elem t _ _ => t == "p" || t == "span"
    | .text _ => false

/-- Fallback container pass: `div` descendants with a structural class, kept
only when they contain both a heading and a paragraph/span element. -/
def fallbackPass (doc : Node) : List Node :=
  ((descendants doc).filter fun n =>
    match n with
    | .elem t cls _ =>
      t == "div" && cls.any fun c => fallbackKeywords.any fun k => strHasSub k c
    | .text _ => false).filter
    fun container => hasHeadingChild container && hasParaChild container

/-- Container locator: the primary pass, or the fallback pass when the primary
pass finds nothing. -/
def locateContainers (doc : Node) : List Node :=
  let prim := primaryPass doc
  if prim.isEmpty then fallbackPass doc else prim

/-- The per-container collection loop (lines 161-164): extract from each
container and keep records with a truthy name and a non-sentinel email. -/
def collectLeads (client : Option HunterClient) (containers : List Node)
    (domain : String) : List LeadRec :=
  (containers.filterMap fun c => extractInfoFromCard client c domain).filter
    fun r => r.name != "" && r.inferred_email != "N/A"

/-- The dedup loop (lines 174-179): keep a record when its email is unseen and
not the sentinel, in first-seen order. -/
def dedupByEmail (seen : List String) : List LeadRec → List LeadRec
  | [] => []
  | r :: rs =>
    if !seen.contains r.inferred_email && r.inferred_email != "N/A" then
      r :: dedupByEmail (r.inferred_email :: seen) rs
    else
      dedupByEmail seen rs

/-- Pure core of one page scrape given the parsed document and domain. -/
def scrapePage (client : Option HunterClient) (doc : Node) (domain : String) :
    List LeadRec :=
  dedupByEmail [] (collectLeads client (locateContainers doc) domain)

/-- Strip a leading `"www."` from the netloc, as the source does. -/
def stripWWW (netloc : String) : String :=
  if netloc.startsWith "www." then netloc.drop 4 else netloc

/-- Embedding of `scrape_company_team_page`.  URL parsing (`parse`, giving the
netloc) and page fetching plus markup parsing (`fetch`) are the external
collaborators; a raised fetch/parse exception is `Except.error` and yields an
empty result, as does an empty domain. -/
def scrape_company_team_page (client : Option HunterClient)
    (parse : String → String) (fetch : String → Except String Node)
    (url : String) : List LeadRec :=
  if stripWWW (parse url) = "" then []
  else
    match fetch url with
    | .error _ => []
    | .ok doc => scrapePage client doc (stripWWW (parse url))

/-- The batch loop of `main.py` (lines 162-189) restricted to the scraping
core: each URL is processed independently and the scraped leads are
concatenated; persistence is an external collaborator. -/
def batchScrape (client : Option HunterClient) (parse : String → String)
    (fetch : String → Except String Node) (urls : List String) : List LeadRec :=
  urls.flatMap (scrape_company_team_page client parse fetch)

/-! ## Helper lemmas: substring matching -/

theorem charsStart_iff (n h : List Char) : charsStart n h = true ↔ n <+: h := by
  induction n generalizing h with
  | nil => simp [charsStart]
  | cons a as ih =>
    cases h with
    | nil => simp [charsStart]
    | cons b bs =>
      simp only [charsStart, Bool.and_eq_true, beq_iff_eq, ih, List.cons_prefix_cons]

theorem charsHaveSub_iff (n h : List Char) : charsHaveSub n h = true ↔ n <:+: h := by
  induction h with
  | nil =>
    simp only [charsHaveSub, List.isEmpty_iff]
    constructor
    · rintro rfl
      exact List.infix_refl _
    · intro hi
      exact List.sublist_nil.mp hi.sublist
  | cons b bs ih =>
    simp only [charsHaveSub, Bool.or_eq_true, charsStart_iff, ih, List.infix_cons_iff]

theorem strHasSub_iff (n h : String) :
    strHasSub n h = true ↔ n.toList <:+: h.toList := charsHaveSub_iff _ _

/-! ## Helper lemmas: the email shape matcher -/

theorem matchDot_eq_false {l : List Char} (h : '.' ∉ l) : matchDot l = false := by
  unfold matchDot
  split
  · exact absurd (List.mem_cons_self _ _) h
  · rfl

theorem afterAt_eq_false {l : List Char} (h : '.' ∉ l) : afterAt l = false := by
  induction l with
  | nil => rfl
  | cons c rest ih =>
    have hrest : '.' ∉ rest := fun hm => h (List.mem_cons_of_mem _ hm)
    simp [afterAt, matchDot_eq_false hrest, ih hrest]

theorem afterAt_ne_nil {l : List Char} (h : afterAt l = true) : l ≠ [] := by
  intro hnil; rw [hnil] at h; exact absurd h (by decide)

theorem matchAtSign_cons_ne {c : Char} (l : List Char) (h : c ≠ '@') :
    matchAtSign (c :: l) = false := by
  unfold matchAtSign
  split
  · rename_i heq
    cases heq
    exact absurd rfl h
  · rfl

theorem emailMatchList_append (locl rest : List Char) :
    (∀ c ∈ locl, c ≠ '@') →
    emailMatchList (locl ++ '@' :: rest) = (!locl.isEmpty && afterAt rest) := by
  induction locl with
  | nil => intro _; simp [emailMatchList]
  | cons c ls ih =>
    intro hno
    have hc : (c != '@') = true := by
      simpa using hno c (List.mem_cons_self _ _)
    have hls : ∀ x ∈ ls, x ≠ '@' := fun x hx => hno x (List.mem_cons_of_mem _ hx)
    cases ls with
    | nil => simp [emailMatchList, matchAtSign, hc]
    | cons c' ls' =>
      have hc' : c' ≠ '@' := hls c' (List.mem_cons_self _ _)
      have ih' := ih hls
      simp only [List.append_eq, List.cons_append, emailMatchList, hc, Bool.true_and,
        matchAtSign_cons_ne _ hc', Bool.false_or, List.isEmpty_cons, Bool.not_false,
        Bool.true_and] at ih' ⊢
      exact ih'

/-! ## Helper lemmas: lowercasing and name tokens -/

theorem ofNat_shift_ne_at {n : Nat} (h1 : 65 ≤ n) (h2 : n ≤ 90) :
    Char.ofNat (n + 32) ≠ '@' := by
  interval_cases n <;> decide

theorem toLower_ne_at {c : Char} (h : isWordChar c = true) : Char.toLower c ≠ '@' := by
  simp only [Char.toLower]
  split
  · rename_i hrange
    exact ofNat_shift_ne_at hrange.1 hrange.2
  · intro heq
    rw [heq] at h
    exact absurd h (by decide)

theorem pyLower_toList (s : String) : (pyLower s).toList = s.toList.map Char.toLower := rfl

theorem pyLower_no_at {s : String} (h : ∀ c ∈ s.toList, isWordChar c = true) :
    ∀ c ∈ (pyLower s).toList, c ≠ '@' := by
  intro c hc
  rw [pyLower_toList, List.mem_map] at hc
  obtain ⟨a, ha, rfl⟩ := hc
  exact toLower_ne_at (h a ha)

theorem pyLower_toList_ne_nil {s : String} (h : s.toList ≠ []) :
    (pyLower s).toList ≠ [] := by
  rw [pyLower_toList]
  simpa using h

theorem wordRun_all {l : List Char} : ∀ c ∈ wordRun l, isWordChar c = true :=
  fun _ hc => List.mem_takeWhile_imp hc

theorem firstNameMatch_run {name f : String} (h : firstNameMatch name = some f) :
    f.toList ≠ [] ∧ ∀ c ∈ f.toList, isWordChar c = true := by
  unfold firstNameMatch at h
  split at h
  · exact absurd h (by simp)
  · rename_i hne
    cases h
    exact ⟨by simpa [List.isEmpty_iff] using hne, fun c hc => wordRun_all c hc⟩

theorem lastNameMatch_run {name l : String} (h : lastNameMatch name = some l) :
    l.toList ≠ [] ∧ ∀ c ∈ l.toList, isWordChar c = true := by
  unfold lastNameMatch at h
  split at h
  · rename_i heq hrun
    split at h
    · cases h
      constructor
      · simp only [ne_eq, List.reverse_eq_nil_iff]
        rw [hrun]
        simp
      · intro x hx
        have hx' : x ∈ wordRun name.toList.reverse := by
          simpa using hx
        exact wordRun_all x hx'
    · exact absurd h (by simp)
  · exact absurd h (by simp)

theorem toList_ne_nil_ne_empty {s : String} (h : s.toList ≠ []) : s ≠ "" := by
  intro heq
  rw [heq] at h
  exact h rfl

theorem firstNameMatch_name_ne_empty {name f : String}
    (h : firstNameMatch name = some f) : name ≠ "" := by
  unfold firstNameMatch at h
  split at h
  · exact absurd h (by simp)
  · rename_i hne
    intro heq
    rw [heq] at hne
    exact hne (by decide)

/-! ## Helper lemmas: the candidate emails -/

/-- Character-level form of a candidate string `x ++ "@" ++ domain`. -/
theorem toList_candidate (x domain : String) :
    (x ++ "@" ++ domain).toList = x.toList ++ '@' :: domain.toList := by
  show (x ++ "@" ++ domain).data = x.data ++ '@' :: domain.data
  rw [String.data_append, String.data_append, List.append_assoc]
  rfl

theorem emailShape_candidate (x domain : String)
    (hno : ∀ c ∈ x.toList, c ≠ '@') :
    emailShape (x ++ "@" ++ domain) = (!x.toList.isEmpty && afterAt domain.toList) := by
  unfold emailShape
  rw [show (x ++ "@" ++ domain).toList = x.toList ++ '@' :: domain.toList from
    toList_candidate x domain]
  exact emailMatchList_append _ _ hno

theorem noAt_append {a b : String} (ha : ∀ c ∈ a.toList, c ≠ '@')
    (hb : ∀ c ∈ b.toList, c ≠ '@') : ∀ c ∈ (a ++ b).toList, c ≠ '@' := by
  intro c hc
  rw [show (a ++ b).toList = a.toList ++ b.toList from String.data_append a b] at hc
  rcases List.mem_append.mp hc with h | h
  · exact ha c h
  · exact hb c h

theorem strHead_subset (s : String) : ∀ c ∈ (strHead s).toList, c ∈ s.toList := by
  unfold strHead
  split
  · intro c hc
    exact absurd hc (by simp)
  · rename_i c' rest heq
    intro c hc
    have : c = c' := by simpa using hc
    rw [this, heq]
    exact List.mem_cons_self _ _

theorem noAt_strHead {s : String} (hs : ∀ c ∈ s.toList, c ≠ '@') :
    ∀ c ∈ (strHead s).toList, c ≠ '@' :=
  fun c hc => hs c (strHead_subset s c hc)

/-! ## Helper lemmas: the dedup loop -/

theorem dedupByEmail_cond (seen : List String) (r : LeadRec) (rs : List LeadRec) :
    dedupByEmail seen (r :: rs) =
      if r.inferred_email ∉ seen ∧ r.inferred_email ≠ "N/A" then
        r :: dedupByEmail (r.inferred_email :: seen) rs
      else dedupByEmail seen rs := by
  rw [dedupByEmail]
  by_cases h1 : r.inferred_email ∈ seen <;> by_cases h2 : r.inferred_email = "N/A" <;>
    simp [h1, h2]

theorem dedupByEmail_mem (l : List LeadRec) (seen : List String) (r : LeadRec)
    (h : r ∈ dedupByEmail seen l) :
    r.inferred_email ∉ seen ∧ r.inferred_email ≠ "N/A" := by
  induction l generalizing seen with
  | nil => simp [dedupByEmail] at h
  | cons a tl ih =>
    rw [dedupByEmail_cond] at h
    split at h
    · rename_i hcond
      rcases List.mem_cons.mp h with rfl | hmem
      · exact hcond
      · have hr := ih _ hmem
        refine ⟨fun hin => hr.1 (List.mem_cons_of_mem _ hin), hr.2⟩
    · exact ih _ h

theorem dedupByEmail_nodup (l : List LeadRec) (seen : List String) :
    ((dedupByEmail seen l).map LeadRec.inferred_email).Nodup := by
  induction l generalizing seen with
  | nil => simp [dedupByEmail]
  | cons a tl ih =>
    rw [dedupByEmail_cond]
    split
    · rename_i hcond
      simp only [List.map_cons, List.nodup_cons]
      refine ⟨fun hmem => ?_, ih _⟩
      rw [List.mem_map] at hmem
      obtain ⟨r, hr, he⟩ := hmem
      exact (dedupByEmail_mem _ _ _ hr).1 (he ▸ List.mem_cons_self _ _)
    · exact ih _

theorem dedupByEmail_sublist (l : List LeadRec) (seen : List String) :
    (dedupByEmail seen l).Sublist l := by
  induction l generalizing seen with
  | nil => simp [dedupByEmail]
  | cons a tl ih =>
    rw [dedupByEmail_cond]
    split
    · exact (ih _).cons₂ a
    · exact (ih _).cons a

theorem dedupByEmail_first_occurrence (l : List LeadRec) (seen : List String)
    (r : LeadRec) (h : r ∈ dedupByEmail seen l) :
    ∃ l₁ l₂, l = l₁ ++ r :: l₂ ∧
      ∀ r' ∈ l₁, r'.inferred_email ≠ r.inferred_email := by
  induction l generalizing seen with
  | nil => simp [dedupByEmail] at h
  | cons a tl ih =>
    rw [dedupByEmail_cond] at h
    split at h
    · rename_i hcond
      rcases List.mem_cons.mp h with rfl | hmem
      · exact ⟨[], tl, rfl, by simp⟩
      · obtain ⟨l₁, l₂, heq, hne⟩ := ih _ hmem
        refine ⟨a :: l₁, l₂, by rw [heq, List.cons_append], ?_⟩
        intro r' hr'
        rcases List.mem_cons.mp hr' with rfl | hmem'
        · have := (dedupByEmail_mem _ _ _ hmem).1
          exact fun he => this (he ▸ List.mem_cons_self _ _)
        · exact hne r' hmem'
    · rename_i hcond
      obtain ⟨l₁, l₂, heq, hne⟩ := ih _ h
      refine ⟨a :: l₁, l₂, by rw [heq, List.cons_append], ?_⟩
      intro r' hr'
      rcases List.mem_cons.mp hr' with rfl | hmem'
      · have hr := dedupByEmail_mem _ _ _ h
        rcases not_and_or.mp hcond with hc | hc
        · rw [not_not] at hc
          exact fun he => hr.1 (he ▸ hc)
        · rw [not_not] at hc
          exact fun he => hr.2 (he ▸ hc)
      · exact hne r' hmem'

/-! ## Claim C4: the status map of the verification adapter -/

/-- Claim C4: for every provider result token obtained from a successful
provider call on a shape-valid email, the adapter maps `valid`, `deliverable`
and `acceptable` to `VERIFIED`, `invalid` and `undeliverable` to `INVALID`,
and every other token — including unrecognized or absent ones — to
`UNKNOWN`. -/
theorem C4_status_map (fn : HunterClient) (email domain : String)
    (r : HunterResult) (hshape : emailShape email = true)
    (hcall : fn email = .ok r) :
    (verify_email_with_hunter (some fn) email domain).status =
      statusMapGet r.result ∧
    statusMapGet (some "valid") = "VERIFIED" ∧
    statusMapGet (some "deliverable") = "VERIFIED" ∧
    statusMapGet (some "acceptable") = "VERIFIED" ∧
    statusMapGet (some "invalid") = "INVALID" ∧
    statusMapGet (some "undeliverable") = "INVALID" ∧
    (∀ t : String, t ≠ "valid" → t ≠ "deliverable" → t ≠ "acceptable" →
      t ≠ "invalid" → t ≠ "undeliverable" → statusMapGet (some t) = "UNKNOWN") ∧
    statusMapGet none = "UNKNOWN" := by
  refine ⟨?_, rfl, rfl, rfl, rfl, rfl, ?_, rfl⟩
  · simp [verify_email_with_hunter, hshape, hcall]
  · intro t h1 h2 h3 h4 h5
    unfold statusMapGet
    split
    all_goals simp_all

/-- Witness for C4 at the token `valid` on a concrete email. -/
theorem C4_status_map_witness :
    (verify_email_with_hunter
        (some fun _ => .ok ⟨some "valid", some "sendable"⟩)
        "jane.smith@example.com" "example.com").status =
      statusMapGet (some "valid") ∧
    statusMapGet (some "valid") = "VERIFIED" ∧
    statusMapGet (some "deliverable") = "VERIFIED" ∧
    statusMapGet (some "acceptable") = "VERIFIED" ∧
    statusMapGet (some "invalid") = "INVALID" ∧
    statusMapGet (some "undeliverable") = "INVALID" ∧
    (∀ t : String, t ≠ "valid" → t ≠ "deliverable" → t ≠ "acceptable" →
      t ≠ "invalid" → t ≠ "undeliverable" → statusMapGet (some t) = "UNKNOWN") ∧
    statusMapGet none = "UNKNOWN" :=
  C4_status_map (fun _ => .ok ⟨some "valid", some "sendable"⟩)
    "jane.smith@example.com" "example.com" ⟨some "valid", some "sendable"⟩
    (by decide) rfl

/-! ## Claim C5: provider failures degrade the status only -/

/-- Claim C5: for every exception raised by the provider call on a shape-valid
email, `verify_email_with_hunter` returns status `ERROR_VERIFYING` with a
details string describing the failure (never propagating the exception), and
an extracted record still carries the same name, title, company and inferred
email as with no provider at all — only the status fields degrade. -/
theorem C5_provider_error (fn : HunterClient) (email domain e : String)
    (hshape : emailShape email = true) (hfail : fn email = .error e) :
    verify_email_with_hunter (some fn) email domain =
      ⟨"ERROR_VERIFYING", "Hunter.io API error: " ++ e⟩ ∧
    (∀ card dom r, extractInfoFromCard (some fn) card dom = some r →
      ∃ r₀, extractInfoFromCard none card dom = some r₀ ∧ r.name = r₀.name ∧
        r.job_title = r₀.job_title ∧ r.company = r₀.company ∧
        r.inferred_email = r₀.inferred_email) ∧
    (∀ card dom r, extractInfoFromCard (some fn) card dom = some r →
      r.inferred_email = email → r.verified_status = "ERROR_VERIFYING") := by
  refine ⟨?_, ?_, ?_⟩
  · simp [verify_email_with_hunter, hshape, hfail]
  · intro card dom r hr
    cases hname : findName card with
    | none => simp [extractInfoFromCard, hname] at hr
    | some name =>
      simp only [extractInfoFromCard, hname] at hr ⊢
      injection hr with hr
      subst hr
      exact ⟨_, rfl, rfl, rfl, rfl, rfl⟩
  · intro card dom r hr hemail
    cases hname : findName card with
    | none => simp [extractInfoFromCard, hname] at hr
    | some name =>
      simp only [extractInfoFromCard, hname] at hr
      injection hr with hr
      subst hr
      show (verify_email_with_hunter (some fn) (inferEmail name dom) dom).status =
        "ERROR_VERIFYING"
      have h2 : inferEmail name dom = email := hemail
      rw [h2]
      simp [verify_email_with_hunter, hshape, hfail]

/-! ## Claim C6: unconfigured provider -/

/-- Claim C6 (amended): for every email and domain, when no verification
provider is configured the outcome is status `UNVERIFIED` with details
`"Hunter.io API key not configured."`, and this is not an error status. -/
theorem C6_no_provider (email domain : String) :
    verify_email_with_hunter none email domain =
      ⟨"UNVERIFIED", "Hunter.io API key not configured."⟩ ∧
    (verify_email_with_hunter none email domain).status ≠ "ERROR_VERIFYING" ∧
    (verify_email_with_hunter none email domain).status ≠ "INVALID" :=
  ⟨rfl,
    by show "UNVERIFIED" ≠ "ERROR_VERIFYING"; decide,
    by show "UNVERIFIED" ≠ "INVALID"; decide⟩

/-- Counterexample to claim C6 as stated: the details string of the
unconfigured-provider outcome is the source literal, not
`"provider not configured"`. -/
theorem C6_counterexample :
    (verify_email_with_hunter none "jane.smith@example.com" "example.com").status =
      "UNVERIFIED" ∧
    (verify_email_with_hunter none "jane.smith@example.com" "example.com").details =
      "Hunter.io API key not configured." ∧
    (verify_email_with_hunter none "jane.smith@example.com" "example.com").details ≠
      "provider not configured" :=
  ⟨rfl, rfl, by decide⟩

/-! ## Concrete documents used by the examples -/

/-- Concrete card with a qualifying name heading and a title paragraph. -/
def cardJane : Node :=
  .elem "div" ["team-member"]
    [.elem "h3" [] [.text "Jane Smith"],
     .elem "p" [] [.text "Chief Executive Officer"]]

/-- Concrete card with a qualifying name heading but no qualifying title
text. -/
def cardBob : Node :=
  .elem "div" ["card"] [.elem "h3" [] [.text "Bob Jones"]]

/-- Concrete card whose first heading text fails the name filter while a later
heading qualifies. -/
def cardMixed : Node :=
  .elem "div" ["team-member"]
    [.elem "h2" [] [.text "123 Numbers"],
     .elem "h3" [] [.text "Jane Smith"]]

/-- Concrete document whose sole person container has the class
`"Team-Member"` (uppercase letters). -/
def docUpperClass : Node :=
  .elem "body" [] [.elem "div" ["Team-Member"] [.elem "h3" [] [.text "Jane Smith"]]]

/-- Concrete document holding the two example cards. -/
def docTwoCards : Node := .elem "body" [] [cardJane, cardBob]

/-- Concrete container that extracts to no record (no name anywhere). -/
def cardNoPerson : Node := .elem "div" ["team"] []

/-! ## Claim C3: the email candidate generator -/

/-- Claim C3 (amended): whenever both name tokens exist and the domain
completes the shape pattern (a dot with at least one non-`@` character on each
side and no `@` before it; in particular every common registrable domain), the
generator returns the lowercased `first.last@domain`; when only the first
token exists it returns `first@domain`; in particular "Jane Smith" with
"example.com" yields `jane.smith@example.com` and "Madonna" yields
`madonna@example.com`. -/
theorem C3_generator (name domain f l : String)
    (hf : firstNameMatch name = some f) (hl : lastNameMatch name = some l)
    (hdom : afterAt domain.toList = true) :
    inferEmail name domain = pyLower f ++ "." ++ pyLower l ++ "@" ++ domain ∧
    (∀ name2 f2, firstNameMatch name2 = some f2 → lastNameMatch name2 = none →
      inferEmail name2 domain = pyLower f2 ++ "@" ++ domain) ∧
    inferEmail "Jane Smith" "example.com" = "jane.smith@example.com" ∧
    inferEmail "Madonna" "example.com" = "madonna@example.com" := by
  have hdomne : domain ≠ "" := toList_ne_nil_ne_empty (afterAt_ne_nil hdom)
  refine ⟨?_, ?_, by decide, by decide⟩
  · have hnamene : name ≠ "" := firstNameMatch_name_ne_empty hf
    have hguard : (name != "" && domain != "") = true := by
      simp [bne_iff_ne, hnamene, hdomne]
    obtain ⟨hFne, hFw⟩ := firstNameMatch_run hf
    obtain ⟨hLne, hLw⟩ := lastNameMatch_run hl
    have hF := pyLower_no_at hFw
    have hL := pyLower_no_at hLw
    have hdotOk : ∀ c ∈ ("." : String).toList, c ≠ '@' := by decide
    have hno : ∀ c ∈ (pyLower f ++ "." ++ pyLower l).toList, c ≠ '@' :=
      noAt_append (noAt_append hF hdotOk) hL
    have hxne : (pyLower f ++ "." ++ pyLower l).toList.isEmpty = false := by
      show ((pyLower f ++ ".") ++ pyLower l).data.isEmpty = false
      rw [String.data_append, String.data_append]
      simp [List.isEmpty_iff, pyLower_toList_ne_nil hFne]
    have hc1 : emailShape (pyLower f ++ "." ++ pyLower l ++ "@" ++ domain) = true := by
      rw [emailShape_candidate _ _ hno, hxne, hdom]
      rfl
    simp only [inferEmail, hguard, if_true, emailCandidates, hf, hl,
      List.find?_cons_of_pos _ hc1]
  · intro name2 f2 hf2 hl2
    have hnamene : name2 ≠ "" := firstNameMatch_name_ne_empty hf2
    have hguard : (name2 != "" && domain != "") = true := by
      simp [bne_iff_ne, hnamene, hdomne]
    obtain ⟨hFne, hFw⟩ := firstNameMatch_run hf2
    have hF := pyLower_no_at hFw
    have hxne : (pyLower f2).toList.isEmpty = false := by
      rw [Bool.eq_false_iff]
      intro hemp
      exact pyLower_toList_ne_nil hFne (List.isEmpty_iff.mp hemp)
    have hc1 : emailShape (pyLower f2 ++ "@" ++ domain) = true := by
      rw [emailShape_candidate _ _ hF, hxne, hdom]
      rfl
    simp only [inferEmail, hguard, if_true, emailCandidates, hf2, hl2,
      List.find?_cons_of_pos _ hc1]

/-- Witness for C3 at "Jane Smith" / "example.com". -/
theorem C3_generator_witness :
    inferEmail "Jane Smith" "example.com" =
      pyLower "Jane" ++ "." ++ pyLower "Smith" ++ "@" ++ "example.com" ∧
    (∀ name2 f2, firstNameMatch name2 = some f2 → lastNameMatch name2 = none →
      inferEmail name2 "example.com" = pyLower f2 ++ "@" ++ "example.com") ∧
    inferEmail "Jane Smith" "example.com" = "jane.smith@example.com" ∧
    inferEmail "Madonna" "example.com" = "madonna@example.com" :=
  C3_generator "Jane Smith" "example.com" "Jane" "Smith" (by decide) (by decide)
    (by decide)

/-- Counterexample to claim C3 as stated: with the non-empty domain
`"localhost"` (no dot) the generator returns the sentinel, not
`jane.smith@localhost`. -/
theorem C3_counterexample :
    inferEmail "Jane Smith" "localhost" = "N/A" ∧
    inferEmail "Jane Smith" "localhost" ≠ "jane.smith@localhost" ∧
    ("localhost" : String) ≠ "" :=
  ⟨by decide, by decide, by decide⟩

/-! ## Claim C10: dotless domains produce no email and the record is dropped -/

/-- Every candidate fails the shape check when the domain cannot complete the
pattern, so the inferred email stays the sentinel. -/
theorem inferEmail_of_afterAt_false (nm domain : String)
    (hdom : afterAt domain.toList = false) : inferEmail nm domain = "N/A" := by
  unfold inferEmail
  split
  · have hfind : (emailCandidates nm domain).find? emailShape = none := by
      rw [List.find?_eq_none]
      intro x hx
      cases h1 : firstNameMatch nm with
      | none => simp [emailCandidates, h1] at hx
      | some f =>
        have hF := pyLower_no_at (firstNameMatch_run h1).2
        have hH := noAt_strHead hF
        have hdotOk : ∀ c ∈ ("." : String).toList, c ≠ '@' := by decide
        have hdashOk : ∀ c ∈ ("-" : String).toList, c ≠ '@' := by decide
        cases h2 : lastNameMatch nm with
        | none =>
          simp only [emailCandidates, h1, h2, List.mem_singleton] at hx
          subst hx
          rw [emailShape_candidate _ _ hF, hdom]
          simp
        | some l =>
          have hL := pyLower_no_at (lastNameMatch_run h2).2
          simp only [emailCandidates, h1, h2, List.mem_cons,
            List.mem_singleton, List.not_mem_nil, or_false] at hx
          rcases hx with rfl | rfl | rfl | rfl | rfl | rfl
          · rw [emailShape_candidate _ _ (noAt_append (noAt_append hF hdotOk) hL), hdom]
            simp
          · rw [emailShape_candidate _ _ (noAt_append hH hL), hdom]
            simp
          · rw [emailShape_candidate _ _ (noAt_append hF hL), hdom]
            simp
          · rw [emailShape_candidate _ _ (noAt_append (noAt_append hF hdashOk) hL), hdom]
            simp
          · rw [emailShape_candidate _ _ (noAt_append hL hH), hdom]
            simp
          · rw [emailShape_candidate _ _ hF, hdom]
            simp
    rw [hfind]
  · rfl

/-- Claim C10: for every container whose page domain is non-empty but contains
no dot, every generated candidate fails the shape check, the record keeps the
sentinel email, and the record is excluded from the page result. -/
theorem C10_dotless (name domain : String) (_hne : domain ≠ "")
    (hdot : '.' ∉ domain.toList) :
    inferEmail name domain = "N/A" ∧
    (∀ client card r doc, extractInfoFromCard client card domain = some r →
      r.inferred_email = "N/A" ∧ r ∉ scrapePage client doc domain) := by
  have hafter : afterAt domain.toList = false := afterAt_eq_false hdot
  refine ⟨inferEmail_of_afterAt_false name domain hafter, ?_⟩
  intro client card r doc hr
  have hrmail : r.inferred_email = "N/A" := by
    cases hname : findName card with
    | none => simp [extractInfoFromCard, hname] at hr
    | some nm =>
      simp only [extractInfoFromCard, hname] at hr
      injection hr with hr
      subst hr
      exact inferEmail_of_afterAt_false nm domain hafter
  refine ⟨hrmail, fun hmem => ?_⟩
  exact (dedupByEmail_mem _ _ _ hmem).2 hrmail

/-- Witness for C10 at the domain "localhost" with a concrete card. -/
theorem C10_dotless_witness :
    inferEmail "Jane Smith" "localhost" = "N/A" ∧
    (∀ client card r doc, extractInfoFromCard client card "localhost" = some r →
      r.inferred_email = "N/A" ∧ r ∉ scrapePage client doc "localhost") :=
  C10_dotless "Jane Smith" "localhost" (by decide) (by decide)

/-! ## Claim C7: the primary container pass -/

/-- Spec-modelled comparison definition following the claim's words only: a
class token matches a locator keyword case-insensitively (the token is
lowercased before the substring test). -/
def ciClassTokenMatchSpec (c : String) : Bool :=
  locatorKeywords.any fun k => strHasSub k (pyLower c)

/-- Claim C7 (amended): the primary pass selects exactly the `div`/`li`
descendants one of whose class tokens contains a locator keyword as a
substring under CASE-SENSITIVE matching (the source regex has no
`re.IGNORECASE`). -/
theorem C7_locator (doc : Node) (t : String) (cls : List String)
    (ch : List Node) :
    Node.elem t cls ch ∈ primaryPass doc ↔
      (Node.elem t cls ch ∈ descendants doc ∧ (t = "div" ∨ t = "li") ∧
        ∃ c ∈ cls, ∃ k ∈ locatorKeywords, k.toList <:+: c.toList) := by
  simp only [primaryPass, List.mem_filter, Bool.and_eq_true, Bool.or_eq_true,
    beq_iff_eq, List.any_eq_true, classTokenMatch, strHasSub_iff, and_assoc]

/-- Witness for C7 on a concrete single-container document. -/
theorem C7_locator_witness :
    Node.elem "div" ["card"] [] ∈
        primaryPass (Node.elem "body" [] [Node.elem "div" ["card"] []]) ↔
      (Node.elem "div" ["card"] [] ∈
          descendants (Node.elem "body" [] [Node.elem "div" ["card"] []]) ∧
        ("div" = "div" ∨ "div" = "li") ∧
        ∃ c ∈ ["card"], ∃ k ∈ locatorKeywords,
          String.toList k <:+: String.toList c) :=
  C7_locator (Node.elem "body" [] [Node.elem "div" ["card"] []]) "div" ["card"] []

/-- Counterexample to claim C7 as stated: the document contains a `div` whose
class token `"Team-Member"` matches the keywords case-insensitively, yet the
primary pass selects nothing, because the source matching is
case-sensitive. -/
theorem C7_counterexample :
    primaryPass docUpperClass = [] ∧
    ciClassTokenMatchSpec "Team-Member" = true ∧
    classTokenMatch "Team-Member" = false ∧
    ((descendants docUpperClass).filter fun n =>
      match n with
      | .elem t cls _ => (t == "div" || t == "li") && cls.any ciClassTokenMatchSpec
      | .text _ => false).length = 1 :=
  ⟨rfl, rfl, rfl, rfl⟩

/-! ## Claim C8: name search step (a) -/

/-- Claim C8 (amended): name search step (a) examines ONLY the first
heading/bold/strong descendant that carries a direct string: its stripped text
is returned iff the basic name filter accepts it; when that first text fails
the filter, step (a) yields nothing — even if a later heading descendant would
qualify — and the name search falls through to the broad text scan. -/
theorem C8_step_a (card : Node) (n : Node)
    (h : ((descendants card).filter isNameTagCandidate).head? = some n) :
    (nameFilterA (getTextStrip n) = true →
      nameStepA card = some (getTextStrip n)) ∧
    (nameFilterA (getTextStrip n) = false →
      nameStepA card = none ∧ findName card = nameStepB card) := by
  constructor
  · intro hq
    simp [nameStepA, h, hq]
  · intro hq
    have ha : nameStepA card = none := by
      simp [nameStepA, h, hq]
    exact ⟨ha, by simp [findName, ha]⟩

/-- Witness for C8 on the concrete mixed card: the first heading text
`"123 Numbers"` fails the filter, so step (a) yields none. -/
theorem C8_step_a_witness :
    (nameFilterA (getTextStrip (Node.elem "h2" [] [Node.text "123 Numbers"])) =
        true →
      nameStepA cardMixed =
        some (getTextStrip (Node.elem "h2" [] [Node.text "123 Numbers"]))) ∧
    (nameFilterA (getTextStrip (Node.elem "h2" [] [Node.text "123 Numbers"])) =
        false →
      nameStepA cardMixed = none ∧ findName cardMixed = nameStepB cardMixed) :=
  C8_step_a cardMixed (Node.elem "h2" [] [Node.text "123 Numbers"]) rfl

/-- Counterexample to claim C8 as stated: `cardMixed` has a qualifying heading
descendant with text `"Jane Smith"`, yet step (a) returns nothing because the
FIRST heading descendant's text `"123 Numbers"` does not qualify. -/
theorem C8_counterexample :
    nameStepA cardMixed = none ∧
    ((((descendants cardMixed).filter fun n =>
          isNameTagCandidate n && nameFilterA (getTextStrip n)).map
        getTextStrip).head? = some "Jane Smith") :=
  ⟨rfl, rfl⟩

/-! ## Claim C9: missing title gives the sentinel title -/

/-- Claim C9 (amended): for every container in which a name is found but no
descendant `p`/`span`/`div`/`small` text satisfies the title criteria, the
record is still emitted and its `job_title` equals the sentinel string
`"N/A"`. -/
theorem C9_title_sentinel (client : Option HunterClient) (card : Node)
    (domain name : String) (hname : findName card = some name)
    (htitle : titleFirst card name = none) :
    ∃ r, extractInfoFromCard client card domain = some r ∧
      r.job_title = "N/A" := by
  simp only [extractInfoFromCard, hname, htitle]
  exact ⟨_, rfl, rfl⟩

/-- Witness for C9 on the concrete title-less card. -/
theorem C9_title_sentinel_witness :
    ∃ r, extractInfoFromCard none cardBob "example.com" = some r ∧
      r.job_title = "N/A" :=
  C9_title_sentinel none cardBob "example.com" "Bob Jones" rfl rfl

/-- Counterexample to claim C9 as stated: the emitted record's `job_title` is
the source sentinel `"N/A"`, not the string `"not available"`. -/
theorem C9_counterexample :
    (extractInfoFromCard none cardBob "example.com").map LeadRec.job_title =
      some "N/A" ∧
    (extractInfoFromCard none cardBob "example.com").map LeadRec.job_title ≠
      some "not available" :=
  ⟨rfl, by decide⟩

/-- Witness for C5 with a provider that always raises. -/
theorem C5_provider_error_witness :
    verify_email_with_hunter (some fun _ => .error "timeout")
        "jane.smith@example.com" "example.com" =
      ⟨"ERROR_VERIFYING", "Hunter.io API error: " ++ "timeout"⟩ ∧
    (∀ card dom r,
      extractInfoFromCard (some fun _ => .error "timeout") card dom = some r →
      ∃ r₀, extractInfoFromCard none card dom = some r₀ ∧ r.name = r₀.name ∧
        r.job_title = r₀.job_title ∧ r.company = r₀.company ∧
        r.inferred_email = r₀.inferred_email) ∧
    (∀ card dom r,
      extractInfoFromCard (some fun _ => .error "timeout") card dom = some r →
      r.inferred_email = "jane.smith@example.com" →
      r.verified_status = "ERROR_VERIFYING") :=
  C5_provider_error (fun _ => .error "timeout") "jane.smith@example.com"
    "example.com" "timeout" (by decide) rfl

/-! ## Claim C2: the returned list is deduplicated, sentinel-free and in
first-seen order -/

/-- One page scrape either returns the empty list (empty domain or fetch
failure) or the dedup of the collected leads of the fetched document. -/
theorem scrape_cases (client : Option HunterClient) (parse : String → String)
    (fetch : String → Except String Node) (url : String) :
    scrape_company_team_page client parse fetch url = [] ∨
    (∃ doc, fetch url = .ok doc ∧
      scrape_company_team_page client parse fetch url =
        scrapePage client doc (stripWWW (parse url))) := by
  unfold scrape_company_team_page
  split
  · exact Or.inl rfl
  · cases hf : fetch url with
    | error e => exact Or.inl rfl
    | ok doc => exact Or.inr ⟨doc, rfl, rfl⟩

/-- Claim C2: the list returned by `scrape_company_team_page` contains no two
records with equal `inferred_email`, no record whose `inferred_email` is the
sentinel, and lists the surviving records in first-seen container-processing
order: the output is a subsequence of the collected records, and each survivor
is the first collected record bearing its email. -/
theorem C2_dedup (client : Option HunterClient) (parse : String → String)
    (fetch : String → Except String Node) (url : String) :
    ((scrape_company_team_page client parse fetch url).map
      LeadRec.inferred_email).Nodup ∧
    (∀ r ∈ scrape_company_team_page client parse fetch url,
      r.inferred_email ≠ "N/A") ∧
    (∀ doc, fetch url = .ok doc →
      (scrape_company_team_page client parse fetch url).Sublist
        (collectLeads client (locateContainers doc) (stripWWW (parse url))) ∧
      (∀ r ∈ scrape_company_team_page client parse fetch url,
        ∃ l₁ l₂,
          collectLeads client (locateContainers doc) (stripWWW (parse url)) =
            l₁ ++ r :: l₂ ∧
          ∀ r2 ∈ l₁, r2.inferred_email ≠ r.inferred_email)) := by
  rcases scrape_cases client parse fetch url with h | ⟨doc0, hf0, h⟩
  · rw [h]
    refine ⟨by simp, by simp, ?_⟩
    intro doc hdoc
    exact ⟨List.nil_sublist _, by simp⟩
  · rw [h]
    refine ⟨?_, ?_, ?_⟩
    · simp only [scrapePage]
      exact dedupByEmail_nodup _ _
    · intro r hr
      simp only [scrapePage] at hr
      exact (dedupByEmail_mem _ _ _ hr).2
    · intro doc hdoc
      rw [hf0] at hdoc
      injection hdoc with hdoc
      subst hdoc
      constructor
      · simp only [scrapePage]
        exact dedupByEmail_sublist _ _
      · intro r hr
        simp only [scrapePage] at hr
        exact dedupByEmail_first_occurrence _ _ _ hr

/-- Witness for C2 on a concrete two-card document. -/
theorem C2_dedup_witness :
    ((scrape_company_team_page none (fun _ => "example.com")
        (fun _ => .ok docTwoCards) "u").map LeadRec.inferred_email).Nodup ∧
    (∀ r ∈ scrape_company_team_page none (fun _ => "example.com")
        (fun _ => .ok docTwoCards) "u",
      r.inferred_email ≠ "N/A") ∧
    (∀ doc, (fun _ : String => Except.ok (ε := String) docTwoCards) "u" = .ok doc →
      (scrape_company_team_page none (fun _ => "example.com")
          (fun _ => .ok docTwoCards) "u").Sublist
        (collectLeads none (locateContainers doc)
          (stripWWW ((fun _ : String => "example.com") "u"))) ∧
      (∀ r ∈ scrape_company_team_page none (fun _ => "example.com")
          (fun _ => .ok docTwoCards) "u",
        ∃ l₁ l₂,
          collectLeads none (locateContainers doc)
              (stripWWW ((fun _ : String => "example.com") "u")) =
            l₁ ++ r :: l₂ ∧
          ∀ r2 ∈ l₁, r2.inferred_email ≠ r.inferred_email)) :=
  C2_dedup none (fun _ => "example.com") (fun _ => .ok docTwoCards) "u"

/-! ## Claim C1: failure isolation across pages and containers -/

/-- Claim C1: a fetch/parse failure for one URL yields an empty result for
that URL only — the batch output is exactly the concatenation of the other
URLs' results — and a container whose extraction yields no record is simply
skipped, leaving the records collected from the surrounding containers
unchanged; no failure ever propagates (every embedded function is total). -/
theorem C1_isolation (client : Option HunterClient) (parse : String → String)
    (fetch : String → Except String Node) (us1 us2 : List String)
    (u e domain : String) (cs1 cs2 : List Node) (bad : Node)
    (hf : fetch u = .error e)
    (hbad : extractInfoFromCard client bad domain = none) :
    scrape_company_team_page client parse fetch u = [] ∧
    batchScrape client parse fetch (us1 ++ u :: us2) =
      batchScrape client parse fetch us1 ++ batchScrape client parse fetch us2 ∧
    collectLeads client (cs1 ++ bad :: cs2) domain =
      collectLeads client (cs1 ++ cs2) domain := by
  have h1 : scrape_company_team_page client parse fetch u = [] := by
    unfold scrape_company_team_page
    split
    · rfl
    · rw [hf]
  refine ⟨h1, ?_, ?_⟩
  · unfold batchScrape
    rw [List.flatMap_append, List.flatMap_cons, h1]
    simp
  · simp only [collectLeads, List.filterMap_append, List.filterMap_cons, hbad]

/-- Witness for C1 with a concrete failing fetch and a concrete non-person
container. -/
theorem C1_isolation_witness :
    scrape_company_team_page none (fun _ => "example.com")
      (fun _ => .error "boom") "u" = [] ∧
    batchScrape none (fun _ => "example.com") (fun _ => .error "boom")
        ([] ++ "u" :: ["v"]) =
      batchScrape none (fun _ => "example.com") (fun _ => .error "boom") [] ++
        batchScrape none (fun _ => "example.com") (fun _ => .error "boom")
          ["v"] ∧
    collectLeads none ([] ++ cardNoPerson :: [cardJane]) "example.com" =
      collectLeads none ([] ++ [cardJane]) "example.com" :=
  C1_isolation none (fun _ => "example.com") (fun _ => .error "boom") [] ["v"]
    "u" "boom" "example.com" [] [cardJane] cardNoPerson rfl rfl

end ScraprIQ
